import Mathlib

/-!
# Kyverno pattern → CEL expression generator

A shallow embedding of `backend/internal/converter/cel_generator.go`.

* Go strings are modelled by `String`.  The pattern values come out of a YAML decoder and are valid
  UTF-8; every needle the generator searches for is ASCII, so the byte-level functions of the Go
  `strings` package agree with the character-level functions below.
* A Go result pair `(string, error)` is modelled by `Result = String × Option String`: the
  returned text and the error message (`none` is Go's `nil` error).
* A Go `map[string]interface{}` is modelled by the list of its entries in the order in which the
  `range` loop enumerates them.
-/

namespace KyvernoConverter

/-! ## The Go `strings` functions used by the generator -/

/-- Go `strings.HasPrefix(s, pre)`. -/
def hasPrefix (s pre : String) : Bool :=
  pre.data.isPrefixOf s.data

/-- Go `strings.HasSuffix(s, suf)`. -/
def hasSuffix (s suf : String) : Bool :=
  suf.data.isSuffixOf s.data

/-- Go `strings.TrimPrefix(s, pre)`: `s` without the leading `pre`, or `s` itself. -/
def trimPrefix (s pre : String) : String :=
  if hasPrefix s pre then ⟨s.data.drop pre.data.length⟩ else s

/-- Go `strings.TrimSuffix(s, suf)`: `s` without the trailing `suf`, or `s` itself. -/
def trimSuffix (s suf : String) : String :=
  if hasSuffix s suf then ⟨s.data.take (s.data.length - suf.data.length)⟩ else s

/-- Substring search on character lists: does `sub` occur somewhere in the first list? -/
def containsChars : List Char → List Char → Bool
  | [], sub => sub.isPrefixOf []
  | c :: cs, sub => sub.isPrefixOf (c :: cs) || containsChars cs sub

/-- Go `strings.Contains(s, sub)`. -/
def contains (s sub : String) : Bool :=
  containsChars s.data sub.data

/-- Go `strings.Join(elems, sep)`. -/
def join : List String → String → String
  | [], _ => ""
  | [a], _ => a
  | a :: b :: rest, sep => a ++ sep ++ join (b :: rest) sep

/-! ## Rendering of scalars by `fmt.Sprintf("%v", _)` -/

/-- Go `%v` of a `bool`. -/
def formatBool : Bool → String
  | true => "true"
  | false => "false"

/-- Go `%v` of an `int` / `int64`: decimal digits, with a leading `-` for negative values. -/
def formatInt : Int → String
  | Int.ofNat m => Nat.repr m
  | Int.negSucc m => "-" ++ Nat.repr (m + 1)

/-! ## Data model -/

/-- The dynamic value `interface{}` that holds a pattern node, by the cases of the type switch in
`generateFromPattern`.  A `float64` is carried as the text `%v` renders it to (that rendering is
done by the Go runtime and is the only use the generator makes of the value).  `other` stands for
a value of any other dynamic type, with the type name `%T` prints. -/
inductive Pattern where
  | map (entries : List (String × Pattern))
  | list (items : List Pattern)
  | str (value : String)
  | bool (b : Bool)
  | int (n : Int)
  | int64 (n : Int)
  | float64 (rendered : String)
  | null
  | other (typeName : String)

/-- A Go `(string, error)` result: the text and the error (`none` for `nil`). -/
abbrev Result := String × Option String

/-! ## The generator -/

/-- The `switch value` at the end of `generateValueCheck`: the standard wildcards. -/
def standardWildcard (value path : String) : Result :=
  if value = "?*" then ("has(" ++ path ++ ") && " ++ path ++ " != ''", none)
  else if value = "*" then ("has(" ++ path ++ ")", none)
  else if value = "!*" then ("!has(" ++ path ++ ")", none)
  else (path ++ " == '" ++ value ++ "'", none)

/-- `generateValueCheck(value, path)`: string values, which may contain wildcards. -/
def generateValueCheck (value path : String) : Result :=
  if contains path "image" then
    if hasPrefix value "!*:" then
      let tag := trimPrefix value "!*:"
      ("image(" ++ path ++ ").tag != '" ++ tag ++ "'", none)
    else if hasSuffix value "*" && !contains value "|" then
      let registry := trimSuffix value "/*"
      ("image(" ++ path ++ ").registry == '" ++ registry ++ "'", none)
    else standardWildcard value path
  else standardWildcard value path

/-- The body of the `for key, value := range patternMap` loop of `generateFromMap`, for one entry:
`compile` is `generateFromPattern(value, ·)`.  The result is the condition appended to
`conditions`, or the error with which the loop returns. -/
def entryCondition (key path : String) (compile : String → Result) : Result :=
  if hasPrefix key "(" && hasSuffix key ")" then
    let actualKey := trimSuffix (trimPrefix key "(") ")"
    let currentPath := path ++ "." ++ actualKey
    match compile currentPath with
    | (_, some err) => ("", some err)
    | (subExpr, none) => ("!has(" ++ currentPath ++ ") || (" ++ subExpr ++ ")", none)
  else if hasPrefix key "+(" && hasSuffix key ")" then
    let actualKey := trimSuffix (trimPrefix key "+(") ")"
    let currentPath := path ++ "." ++ actualKey
    match compile currentPath with
    | (_, some err) => ("", some err)
    | (condition, none) => (condition, none)
  else
    let currentPath := path ++ "." ++ key
    match compile currentPath with
    | (_, some err) => ("", some err)
    | (subExpr, none) => ("has(" ++ path ++ ") && " ++ subExpr, none)

/-- The end of `generateFromMap`, after the loop: the loop's error if it returned early, `true`
for an empty `conditions`, and otherwise the conditions joined by ` && ` in parentheses. -/
def joinConditions : List String × Option String → Result
  | (_, some err) => ("", some err)
  | (conditions, none) =>
    if conditions.length = 0 then ("true", none)
    else ("(" ++ join conditions " && " ++ ")", none)

mutual

/-- `generateFromPattern(patternData, path)`: the recursive walk over the pattern.  The `map` case
is the call `generateFromMap(p, path)`, written out as its loop followed by its end. -/
def generateFromPattern : Pattern → String → Result
  | .map entries, path => joinConditions (collectConditions entries path)
  | .list _, _ =>
    ("", some "array patterns are not supported; please use a `foreach` rule instead")
  | .str value, path => generateValueCheck value path
  | .bool b, path => (path ++ " == " ++ formatBool b, none)
  | .int n, path => (path ++ " == " ++ formatInt n, none)
  | .int64 n, path => (path ++ " == " ++ formatInt n, none)
  | .float64 rendered, path => (path ++ " == " ++ rendered, none)
  | .null, path => ("!has(" ++ path ++ ")", none)
  | .other typeName, _ => ("", some ("unsupported type in pattern: " ++ typeName))
termination_by structural p => p

/-- The loop of `generateFromMap`: the slice `conditions` after the loop, or the error of the
first entry whose translation fails. -/
def collectConditions : List (String × Pattern) → String → List String × Option String
  | [], _ => ([], none)
  | (key, value) :: rest, path =>
    match entryCondition key path (generateFromPattern value) with
    | (_, some err) => ([], some err)
    | (condition, none) =>
      match collectConditions rest path with
      | (_, some err) => ([], some err)
      | (conditions, none) => (condition :: conditions, none)
termination_by structural es => es

end

/-- `generateFromMap(patternMap, path)`: object patterns. -/
def generateFromMap (patternMap : List (String × Pattern)) (path : String) : Result :=
  joinConditions (collectConditions patternMap path)

/-! ## For-each rules and the dispatcher -/

/-- Replacement of the first occurrence of `old` on character lists. -/
def replaceFirstChars : List Char → List Char → List Char → List Char
  | [], old, new => if old.isPrefixOf [] then new else []
  | c :: cs, old, new =>
    if old.isPrefixOf (c :: cs) then new ++ (c :: cs).drop old.length
    else c :: replaceFirstChars cs old new

/-- Go `strings.Replace(s, old, new, 1)`: the first occurrence of `old` in `s`, wherever it is,
is replaced by `new`; without an occurrence the result is `s`. -/
def replaceFirst (s old new : String) : String :=
  ⟨replaceFirstChars s.data old.data new.data⟩

/-- `models.ForEach`: a list path and the pattern for its elements (`null` is the `nil` value). -/
structure ForEach where
  List : String
  Pattern : Pattern

/-- `models.ValidateBlock`; an absent `pattern` is the `nil` value `Pattern.null`, an absent
`foreach` the empty slice. -/
structure ValidateBlock where
  Message : String
  Pattern : Pattern
  ForEach : List ForEach

/-- The test `patternData != nil` on an `interface{}` value. -/
def Pattern.isNil : Pattern → Bool
  | .null => true
  | _ => false

/-- The loop of `generateFromForEach`: the slice `allConditions` after the loop, or the error of
the first for-each whose sub-pattern fails. -/
def forEachConditions : List ForEach → List String × Option String
  | [] => ([], none)
  | fe :: rest =>
    let listPath := replaceFirst fe.List "request.object" "object"
    let elementVar := "element"
    match generateFromPattern fe.Pattern elementVar with
    | (_, some err) => ([], some err)
    | (subExpression, none) =>
      let condition := "!has(" ++ listPath ++ ") || " ++ listPath ++ ".all(" ++ elementVar
        ++ ", " ++ subExpression ++ ")"
      match forEachConditions rest with
      | (_, some err) => ([], some err)
      | (allConditions, none) => (condition :: allConditions, none)

/-- `generateFromForEach(forEachs)`: `foreach` validation rules. -/
def generateFromForEach (forEachs : List ForEach) : Result :=
  match forEachConditions forEachs with
  | (_, some err) => ("", some err)
  | (allConditions, none) => (join allConditions " && ", none)

/-- `GenerateCEL(validate)`: the dispatcher on the contents of the `validate` block. -/
def GenerateCEL (validate : ValidateBlock) : Result :=
  if !validate.Pattern.isNil then
    generateFromPattern validate.Pattern "object"
  else if validate.ForEach.length > 0 then
    generateFromForEach validate.ForEach
  else
    ("", some "unsupported validation type: only 'pattern' and 'foreach' are implemented")

/-! ## The policy converter (`converter.go`) -/

/-- `models.Metadata`. -/
structure Metadata where
  Name : String
  Annotations : List (String × Pattern)

/-- `models.ResourceFilter`: the kinds of its `resources` block. -/
structure ResourceFilter where
  Kinds : List String

/-- `models.MatchBlock`. -/
structure MatchBlock where
  Any : List ResourceFilter
  All : List ResourceFilter

/-- `models.LegacyRule`. -/
structure LegacyRule where
  Name : String
  Match : MatchBlock
  Exclude : MatchBlock
  Validate : ValidateBlock

/-- `models.LegacySpec`; `Background` is a `*bool`. -/
structure LegacySpec where
  ValidationFailureAction : String
  Background : Option Bool
  Rules : List LegacyRule

/-- `models.LegacyClusterPolicy`. -/
structure LegacyClusterPolicy where
  APIVersion : String
  Kind : String
  Metadata : Metadata
  Spec : LegacySpec

/-- `models.ResourceRule`. -/
structure ResourceRule where
  APIGroups : List String
  APIVersions : List String
  Operations : List String
  Resources : List String

/-- `models.MatchConstraints`. -/
structure MatchConstraints where
  ResourceRules : List ResourceRule

/-- `models.Validation`. -/
structure Validation where
  Message : String
  Expression : String

/-- `models.ValidatingSpec`. -/
structure ValidatingSpec where
  ValidationActions : List String
  Background : Option Bool
  MatchConstraints : MatchConstraints
  ExcludeConstraints : KyvernoConverter.MatchConstraints
  Validations : List Validation

/-- `models.ValidatingPolicy`. -/
structure ValidatingPolicy where
  APIVersion : String
  Kind : String
  Metadata : Metadata
  Spec : ValidatingSpec

/-- Go `strings.ToLower`, on the letters `A`..`Z`.  The only use is the comparison with
`enforce`, and no character outside `A`..`Z` has one of the letters of `enforce` as its lower
case, so the comparison has the same outcome as with the full Unicode mapping. -/
def toLower (s : String) : String :=
  ⟨s.data.map Char.toLower⟩

/-- `mapFailureAction(action)`. -/
def mapFailureAction (action : String) : String :=
  if toLower action = "enforce" then "Deny" else "Audit"

/-- `convertMatchBlock(block)`. -/
def convertMatchBlock (block : MatchBlock) : MatchConstraints :=
  match block.Any with
  | filter :: _ =>
    ⟨[⟨[""], ["v1"], ["CREATE", "UPDATE"], filter.Kinds⟩]⟩
  | [] => ⟨[]⟩

/-- The loop of `ToValidatingPolicy` over the rules: the validations appended to the new policy,
or the error with which the loop returns at the first rule that `GenerateCEL` rejects. -/
def convertRules : List LegacyRule → List Validation × Option String
  | [] => ([], none)
  | rule :: rest =>
    match GenerateCEL rule.Validate with
    | (_, some err) => ([], some ("error converting rule '" ++ rule.Name ++ "': " ++ err))
    | (celExpression, none) =>
      match convertRules rest with
      | (_, some err) => ([], some err)
      | (validations, none) => (⟨rule.Validate.Message, celExpression⟩ :: validations, none)

/-- `ToValidatingPolicy(legacy)`: the result is the pair of the policy pointer (`none` for `nil`)
and the error. -/
def ToValidatingPolicy (legacy : LegacyClusterPolicy) : Option ValidatingPolicy × Option String :=
  match legacy.Spec.Rules with
  | [] => (none, some "no rules found in the policy")
  | first :: _ =>
    match convertRules legacy.Spec.Rules with
    | (_, some err) => (none, some err)
    | (validations, none) =>
      (some {
        APIVersion := "policies.kyverno.io/v1alpha1"
        Kind := "ValidatingPolicy"
        Metadata := legacy.Metadata
        Spec := {
          ValidationActions := [mapFailureAction legacy.Spec.ValidationFailureAction]
          Background := legacy.Spec.Background
          MatchConstraints := convertMatchBlock first.Match
          ExcludeConstraints := convertMatchBlock first.Exclude
          Validations := validations } }, none)

/-! ## Predicates used to state the properties -/

mutual

/-- The pattern tree contains, at the root or as a value reached through map entries, a list or
a value of a type outside the supported cases of the type switch. -/
def hasUnsupportedNode : Pattern → Bool
  | .map entries => anyUnsupportedEntry entries
  | .list _ => true
  | .str _ => false
  | .bool _ => false
  | .int _ => false
  | .int64 _ => false
  | .float64 _ => false
  | .null => false
  | .other _ => true
termination_by structural p => p

/-- Some entry of the map has a value with an unsupported node. -/
def anyUnsupportedEntry : List (String × Pattern) → Bool
  | [] => false
  | (_, value) :: rest => hasUnsupportedNode value || anyUnsupportedEntry rest
termination_by structural es => es

end

/-- Scan of an expression text: is there an operator `||` outside every pair of parentheses?
`depth` counts the parentheses that are open at the start of the text. -/
def orOutsideParens : List Char → Nat → Bool
  | [], _ => false
  | c :: cs, depth =>
    if c = '(' then orOutsideParens cs (depth + 1)
    else if c = ')' then orOutsideParens cs (depth - 1)
    else if depth = 0 ∧ c = '|' ∧ cs.head? = some '|' then true
    else orOutsideParens cs depth

/-- The clause of one for-each spec, `!has(L) || L.all(element, c)`, for the list path `L` and
the element condition `c`. -/
def forEachClause (listPath condition : String) : String :=
  "!has(" ++ listPath ++ ") || " ++ listPath ++ ".all(element, " ++ condition ++ ")"

/-- The rewriting of a list path in the words of the specification: a leading `old` is replaced
by `new`, and a path that does not start with `old` is left as it is. -/
def replaceLeading (s old new : String) : String :=
  if hasPrefix s old then new ++ trimPrefix s old else s

/-- The quote character that delimits a string literal of the expression language. -/
def quoteChar : Char := Char.ofNat 39

/-- Reading of a single-quoted literal: after the opening quote, the characters up to the next
quote. -/
def readQuoted (s : String) : Option String :=
  match s.data with
  | [] => none
  | c :: cs =>
    if c = quoteChar ∧ quoteChar ∈ cs then some ⟨cs.takeWhile (fun x => x != quoteChar)⟩
    else none

/-- Reading of decimal digits, most significant first, onto the value read so far. -/
def parseDigitsFrom : List Char → Nat → Option Nat
  | [], acc => some acc
  | c :: cs, acc =>
    if c.isDigit then parseDigitsFrom cs (acc * 10 + (c.toNat - 48)) else none

/-- Reading of a non-empty sequence of decimal digits. -/
def parseNat : List Char → Option Nat
  | [] => none
  | c :: cs => parseDigitsFrom (c :: cs) 0

/-- Reading of a decimal integer literal: an optional `-` and digits. -/
def parseInt (s : String) : Option Int :=
  match s.data with
  | [] => none
  | c :: cs =>
    if c = '-' then (parseNat cs).map (fun n => -(n : Int))
    else (parseNat (c :: cs)).map (fun n => (n : Int))

/-- Reading of a boolean literal. -/
def parseBool (s : String) : Option Bool :=
  if s = "true" then some true else if s = "false" then some false else none

/-- Neither `(` nor `)` occurs in the text. -/
def noParens (s : String) : Bool :=
  s.data.all (fun c => c != '(' && c != ')')

/-- The field name that the loop of `generateFromMap` takes from a key: the key without its
`(...)` or `+(...)` wrapper, or the key itself. -/
def fieldName (key : String) : String :=
  if hasPrefix key "(" && hasSuffix key ")" then trimSuffix (trimPrefix key "(") ")"
  else if hasPrefix key "+(" && hasSuffix key ")" then trimSuffix (trimPrefix key "+(") ")"
  else key

mutual

/-- No string value and no field name of the pattern tree contains a parenthesis.  The rendering
of a `float64` is held to the same condition: the texts that `%v` produces for floating-point
numbers consist of digits, signs, `.`, `e` and the letters of `NaN` and `Inf`. -/
def parenFree : Pattern → Bool
  | .map entries => parenFreeEntries entries
  | .list _ => true
  | .str value => noParens value
  | .bool _ => true
  | .int _ => true
  | .int64 _ => true
  | .float64 rendered => noParens rendered
  | .null => true
  | .other _ => true
termination_by structural p => p

/-- The field names and the values of the entries are free of parentheses. -/
def parenFreeEntries : List (String × Pattern) → Bool
  | [] => true
  | (key, value) :: rest => noParens (fieldName key) && parenFree value && parenFreeEntries rest
termination_by structural es => es

end

/-- A text is parenthesis-balanced: every prefix has at least as many `(` as `)`, and the text
as a whole has as many `(` as `)`. -/
def Balanced (s : String) : Prop :=
  (∀ k ≤ s.data.length, (s.data.take k).count ')' ≤ (s.data.take k).count '(') ∧
  s.data.count '(' = s.data.count ')'

/-- Scan of a text with a counter of the open parentheses: the counter at the end, or `none`
when a `)` meets the counter at zero. -/
def parenScan : List Char → Nat → Option Nat
  | [], depth => some depth
  | c :: cs, depth =>
    if c = '(' then parenScan cs (depth + 1)
    else if c = ')' then (if depth = 0 then none else parenScan cs (depth - 1))
    else parenScan cs depth

/-- The scan of the text returns to the counter with which it starts, whatever that is. -/
def ScanNeutral (s : String) : Prop :=
  ∀ d, parenScan s.data d = some d

/-! ## Facts about the string functions -/

theorem hasPrefix_append (a b : String) : hasPrefix (a ++ b) a = true := by
  simp [hasPrefix, String.data_append]

theorem trimPrefix_append (a b : String) : trimPrefix (a ++ b) a = b := by
  simp [trimPrefix, hasPrefix_append, String.data_append]

theorem hasSuffix_append (a b : String) : hasSuffix (a ++ b) b = true := by
  simp [hasSuffix, String.data_append]

theorem trimSuffix_append (a b : String) : trimSuffix (a ++ b) b = a := by
  simp [trimSuffix, hasSuffix_append, String.data_append]

/-- A string that ends in `/*` ends in `*`. -/
theorem hasSuffix_star (r : String) : hasSuffix (r ++ "/*") "*" = true := by
  have h : r ++ "/*" = (r ++ "/") ++ "*" := by
    rw [String.append_assoc]; rfl
  rw [h]
  exact hasSuffix_append _ _

theorem generateFromPattern_map (entries : List (String × Pattern)) (path : String) :
    generateFromPattern (.map entries) path = generateFromMap entries path := by
  simp [generateFromPattern, generateFromMap]

/-- The loop over a single entry whose condition is produced without error. -/
theorem generateFromMap_single (key path c : String) (value : Pattern)
    (h : entryCondition key path (generateFromPattern value) = (c, none)) :
    generateFromMap [(key, value)] path = ("(" ++ c ++ ")", none) := by
  simp [generateFromMap, collectConditions, h, joinConditions, join]

/-! ## Errors -/

theorem standardWildcard_error (value path : String) : (standardWildcard value path).2 = none := by
  unfold standardWildcard
  split_ifs <;> rfl

theorem generateValueCheck_error (value path : String) :
    (generateValueCheck value path).2 = none := by
  unfold generateValueCheck
  split_ifs <;> first | rfl | exact standardWildcard_error _ _

theorem joinConditions_error (r : List String × Option String) :
    (joinConditions r).2 = r.2 ∧ ((joinConditions r).2.isSome = true → (joinConditions r).1 = "") := by
  rcases r with ⟨conditions, _ | err⟩
  · simp only [joinConditions]
    split_ifs <;> simp
  · simp [joinConditions]

/-- The loop body fails exactly when the translation of the sub-pattern fails, whatever the key;
`b` tells whether the sub-pattern fails, which does not depend on the path. -/
theorem entryCondition_error (key path : String) (compile : String → Result) (b : Bool)
    (h : ∀ q, (compile q).2.isSome = b) :
    (entryCondition key path compile).2.isSome = b := by
  unfold entryCondition
  split_ifs
  · have hq := h (path ++ "." ++ trimSuffix (trimPrefix key "(") ")")
    rcases hc : compile (path ++ "." ++ trimSuffix (trimPrefix key "(") ")") with ⟨e, _ | err⟩ <;>
      simp [hc] at hq ⊢ <;> exact hq
  · have hq := h (path ++ "." ++ trimSuffix (trimPrefix key "+(") ")")
    rcases hc : compile (path ++ "." ++ trimSuffix (trimPrefix key "+(") ")") with ⟨e, _ | err⟩ <;>
      simp [hc] at hq ⊢ <;> exact hq
  · have hq := h (path ++ "." ++ key)
    rcases hc : compile (path ++ "." ++ key) with ⟨e, _ | err⟩ <;>
      simp [hc] at hq ⊢ <;> exact hq

mutual

/-- The translation of a pattern fails exactly on the trees with an unsupported node, and a
failing translation returns the empty text. -/
theorem generateFromPattern_error : ∀ (pattern : Pattern) (path : String),
    (generateFromPattern pattern path).2.isSome = hasUnsupportedNode pattern ∧
    ((generateFromPattern pattern path).2.isSome = true → (generateFromPattern pattern path).1 = "")
  | .map entries, path => by
    have h := collectConditions_error entries path
    have hj := joinConditions_error (collectConditions entries path)
    simp only [generateFromPattern, hasUnsupportedNode]
    exact ⟨by rw [hj.1, h], hj.2⟩
  | .list _, _ => by simp [generateFromPattern, hasUnsupportedNode]
  | .str value, path => by
    simp [generateFromPattern, hasUnsupportedNode, generateValueCheck_error]
  | .bool _, _ => by simp [generateFromPattern, hasUnsupportedNode]
  | .int _, _ => by simp [generateFromPattern, hasUnsupportedNode]
  | .int64 _, _ => by simp [generateFromPattern, hasUnsupportedNode]
  | .float64 _, _ => by simp [generateFromPattern, hasUnsupportedNode]
  | .null, _ => by simp [generateFromPattern, hasUnsupportedNode]
  | .other _, _ => by simp [generateFromPattern, hasUnsupportedNode]

/-- The loop of `generateFromMap` fails exactly when some entry has an unsupported node. -/
theorem collectConditions_error : ∀ (entries : List (String × Pattern)) (path : String),
    (collectConditions entries path).2.isSome = anyUnsupportedEntry entries
  | [], _ => by simp [collectConditions, anyUnsupportedEntry]
  | (key, value) :: rest, path => by
    have hv := entryCondition_error key path (generateFromPattern value) (hasUnsupportedNode value)
      (fun q => (generateFromPattern_error value q).1)
    have hr := collectConditions_error rest path
    simp only [collectConditions, anyUnsupportedEntry]
    rcases hc : entryCondition key path (generateFromPattern value) with ⟨c, _ | err⟩
    · rw [hc] at hv
      rcases hl : collectConditions rest path with ⟨cs, _ | err⟩ <;>
        rw [hl] at hr <;> simp [← hv, ← hr]
    · rw [hc] at hv
      simp [← hv]

end

/-! ## Map keys -/

/-- C1, evaluated on the code: for the plain key `a` with the sub-pattern `true` under the path
`object`, the condition of the entry is `has(object) && object.a == true`: the guard names the
enclosing path `object` and not the field `object.a`, and the text `has(object.a)` does not occur
in the output of `generateFromMap` on the single-entry map. -/
theorem plain_key_guard_names_parent :
    generateFromPattern (.bool true) "object.a" = ("object.a == true", none) ∧
    entryCondition "a" "object" (generateFromPattern (.bool true))
      = ("has(object) && object.a == true", none) ∧
    entryCondition "a" "object" (generateFromPattern (.bool true))
      ≠ ("has(object.a) && object.a == true", none) ∧
    generateFromMap [("a", .bool true)] "object" = ("(has(object) && object.a == true)", none) ∧
    contains (generateFromMap [("a", .bool true)] "object").1 "has(object.a)" = false := by
  decide

/-- C2: for a key `(name)` whose sub-pattern compiles to `s` at the path `p.name`, the condition
of the entry is `!has(p.name) || (s)`, and `generateFromMap` on the single-entry map returns
`(!has(p.name) || (s))` without error. -/
theorem conditional_anchor_condition (p name s : String) (v : Pattern)
    (hs : generateFromPattern v (p ++ "." ++ name) = (s, none)) :
    entryCondition ("(" ++ name ++ ")") p (generateFromPattern v)
      = ("!has(" ++ p ++ "." ++ name ++ ") || (" ++ s ++ ")", none) ∧
    generateFromMap [("(" ++ name ++ ")", v)] p
      = ("(!has(" ++ p ++ "." ++ name ++ ") || (" ++ s ++ "))", none) := by
  have hpre : hasPrefix ("(" ++ name ++ ")") "(" = true := by
    rw [String.append_assoc]; exact hasPrefix_append _ _
  have hsuf : hasSuffix ("(" ++ name ++ ")") ")" = true := hasSuffix_append _ _
  have hkey : trimSuffix (trimPrefix ("(" ++ name ++ ")") "(") ")" = name := by
    rw [String.append_assoc, trimPrefix_append, trimSuffix_append]
  have hc : entryCondition ("(" ++ name ++ ")") p (generateFromPattern v)
      = ("!has(" ++ p ++ "." ++ name ++ ") || (" ++ s ++ ")", none) := by
    unfold entryCondition
    simp only [hpre, hsuf, Bool.and_self, if_true, hkey, hs]
    simp only [String.append_assoc]
  refine ⟨hc, ?_⟩
  rw [generateFromMap_single _ _ _ _ hc]
  simp only [String.append_assoc]
  rw [← String.append_assoc "(" "!has("]
  rfl

/-- The conditional anchor `(app)` with the sub-pattern `?*` under `object.metadata.labels`. -/
theorem conditional_anchor_condition_witness :
    generateFromPattern (.str "?*") ("object.metadata.labels" ++ "." ++ "app")
      = ("has(object.metadata.labels.app) && object.metadata.labels.app != ''", none) ∧
    generateFromMap [("(app)", .str "?*")] "object.metadata.labels"
      = ("(!has(object.metadata.labels.app) || " ++
          "(has(object.metadata.labels.app) && object.metadata.labels.app != ''))", none) :=
  ⟨by decide,
   (conditional_anchor_condition "object.metadata.labels" "app"
      "has(object.metadata.labels.app) && object.metadata.labels.app != ''" (.str "?*")
      (by decide)).2⟩

/-- C3, evaluated on the code: under the path `object`, the single-entry map with the
add-if-absent key `+(a)` compiles to `(object.a == true)`, and the single-entry map with the plain
key `a` and the same sub-pattern compiles to `(has(object) && object.a == true)`: the two results
differ, the add-if-absent entry has no `has` guard. -/
theorem add_if_absent_differs_from_plain :
    generateFromMap [("+(a)", .bool true)] "object" = ("(object.a == true)", none) ∧
    generateFromMap [("a", .bool true)] "object" = ("(has(object) && object.a == true)", none) ∧
    generateFromMap [("+(a)", .bool true)] "object" ≠ generateFromMap [("a", .bool true)] "object" := by
  decide

/-- C4, evaluated on the code: for the map with the entries `(a): "*"` and `b: "*"` (in this
order) under the path `object`, the two conditions are `!has(object.a) || (has(object.a))` and
`has(object) && has(object.b)`, the result is these two joined by ` && ` in parentheses, and the
`||` of the first condition stands outside every parenthesis of the joined text. -/
theorem conditional_anchor_or_at_depth_zero :
    entryCondition "(a)" "object" (generateFromPattern (.str "*"))
      = ("!has(object.a) || (has(object.a))", none) ∧
    entryCondition "b" "object" (generateFromPattern (.str "*"))
      = ("has(object) && has(object.b)", none) ∧
    generateFromMap [("(a)", .str "*"), ("b", .str "*")] "object"
      = ("(!has(object.a) || (has(object.a)) && has(object) && has(object.b))", none) ∧
    orOutsideParens
      (join ["!has(object.a) || (has(object.a))", "has(object) && has(object.b)"] " && ").data 0
      = true := by
  decide

/-! ## Failure of the translation -/

/-- C5: `generateFromPattern` returns an error exactly when the pattern tree contains, at the
root or as a value reached through map entries, a list or a value of an unsupported type; when it
returns an error the returned text is empty; and every list pattern is rejected, with the empty
text, for every path. -/
theorem generateFromPattern_fails_iff_unsupported (pattern : Pattern) (path : String) :
    ((generateFromPattern pattern path).2.isSome = true ↔ hasUnsupportedNode pattern = true) ∧
    (∀ err, (generateFromPattern pattern path).2 = some err →
      (generateFromPattern pattern path).1 = "") ∧
    (∀ items : List Pattern, ∃ err, generateFromPattern (.list items) path = ("", some err)) := by
  have h := generateFromPattern_error pattern path
  refine ⟨by rw [h.1], ?_, ?_⟩
  · intro err herr
    exact h.2 (by rw [herr]; rfl)
  · intro items
    exact ⟨_, rfl⟩

/-- C6: for every path, `generateFromMap` on the empty map, and `generateFromPattern` on the
empty object pattern, return the text `true` without error. -/
theorem empty_map_compiles_to_true (path : String) :
    generateFromMap [] path = ("true", none) ∧
    generateFromPattern (.map []) path = ("true", none) := by
  constructor <;> simp [generateFromMap, generateFromPattern, collectConditions, joinConditions]

/-! ## String values -/

/-- C7: for a path `p` that does not contain `image`, `generateValueCheck` returns, without
error, `has(p) && p != ''` for `?*`, `has(p)` for `*`, `!has(p)` for `!*`, and `p == 'v'` for
every other value `v`, among them `!*:latest` and `reg.io/*`. -/
theorem generateValueCheck_plain_field (p : String) (hp : contains p "image" = false) :
    generateValueCheck "?*" p = ("has(" ++ p ++ ") && " ++ p ++ " != ''", none) ∧
    generateValueCheck "*" p = ("has(" ++ p ++ ")", none) ∧
    generateValueCheck "!*" p = ("!has(" ++ p ++ ")", none) ∧
    (∀ v : String, v ≠ "?*" → v ≠ "*" → v ≠ "!*" →
      generateValueCheck v p = (p ++ " == '" ++ v ++ "'", none)) ∧
    generateValueCheck "!*:latest" p = (p ++ " == '!*:latest'", none) ∧
    generateValueCheck "reg.io/*" p = (p ++ " == 'reg.io/*'", none) := by
  have hgen : ∀ v : String, generateValueCheck v p = standardWildcard v p := by
    intro v
    simp [generateValueCheck, hp]
  have hother : ∀ v : String, v ≠ "?*" → v ≠ "*" → v ≠ "!*" →
      generateValueCheck v p = (p ++ " == '" ++ v ++ "'", none) := by
    intro v h1 h2 h3
    rw [hgen]
    simp [standardWildcard, h1, h2, h3]
  refine ⟨?_, ?_, ?_, hother, ?_, ?_⟩
  · rw [hgen]; simp [standardWildcard]
  · rw [hgen]; simp [standardWildcard]
  · rw [hgen]; simp [standardWildcard]
  · rw [hother "!*:latest" (by decide) (by decide) (by decide)]
    simp only [String.append_assoc]
    rfl
  · rw [hother "reg.io/*" (by decide) (by decide) (by decide)]
    simp only [String.append_assoc]
    rfl

/-- The values `?*` and `nginx` at the path `object.metadata.name`. -/
theorem generateValueCheck_plain_field_witness :
    contains "object.metadata.name" "image" = false ∧
    generateValueCheck "?*" "object.metadata.name"
      = ("has(object.metadata.name) && object.metadata.name != ''", none) ∧
    generateValueCheck "nginx" "object.metadata.name"
      = ("object.metadata.name == 'nginx'", none) :=
  ⟨by decide,
   (generateValueCheck_plain_field "object.metadata.name" (by decide)).1,
   (generateValueCheck_plain_field "object.metadata.name" (by decide)).2.2.2.1 "nginx"
     (by decide) (by decide) (by decide)⟩

/-- C8, evaluated on the code: at the path `object.spec.image`, which contains `image`, the
values `*`, `?*` and `!*` are each taken for a registry pattern, and `generateValueCheck` returns
`image(object.spec.image).registry == '<value>'` for them instead of the wildcard checks. -/
theorem wildcards_on_image_field :
    contains "object.spec.image" "image" = true ∧
    generateValueCheck "*" "object.spec.image"
      = ("image(object.spec.image).registry == '*'", none) ∧
    generateValueCheck "?*" "object.spec.image"
      = ("image(object.spec.image).registry == '?*'", none) ∧
    generateValueCheck "!*" "object.spec.image"
      = ("image(object.spec.image).registry == '!*'", none) ∧
    hasSuffix "*" "/*" = false := by
  decide

/-- C9: for a path `p` that contains `image`, `generateValueCheck` returns
`image(p).tag != 't'` for every value `!*:t`, and `image(p).registry == 'r'` for every value
`r/*` that contains no `|` and does not start with `!*:`. -/
theorem generateValueCheck_image_field (p : String) (hp : contains p "image" = true) :
    (∀ t : String,
      generateValueCheck ("!*:" ++ t) p = ("image(" ++ p ++ ").tag != '" ++ t ++ "'", none)) ∧
    (∀ r : String, contains (r ++ "/*") "|" = false → hasPrefix (r ++ "/*") "!*:" = false →
      generateValueCheck (r ++ "/*") p
        = ("image(" ++ p ++ ").registry == '" ++ r ++ "'", none)) := by
  constructor
  · intro t
    simp [generateValueCheck, hp, hasPrefix_append, trimPrefix_append]
  · intro r hbar hpre
    simp [generateValueCheck, hp, hpre, hbar, hasSuffix_star, trimSuffix_append]

/-- The values `!*:latest` and `my-registry.io/*` at the path `element.image`. -/
theorem generateValueCheck_image_field_witness :
    contains "element.image" "image" = true ∧
    generateValueCheck "!*:latest" "element.image"
      = ("image(element.image).tag != 'latest'", none) ∧
    generateValueCheck "my-registry.io/*" "element.image"
      = ("image(element.image).registry == 'my-registry.io'", none) :=
  ⟨by decide,
   (generateValueCheck_image_field "element.image" (by decide)).1 "latest",
   (generateValueCheck_image_field "element.image" (by decide)).2 "my-registry.io"
     (by decide) (by decide)⟩

/-! ## Scalars -/

/-- C10: for every path `p`, `generateFromPattern` returns `p == true` and `p == false` for the
boolean patterns, `p == n` with `n` in decimal (a leading `-` for negative values) for every
integer pattern `n`, and `!has(p)` for the null pattern, each without error. -/
theorem scalar_patterns (p : String) :
    generateFromPattern (.bool true) p = (p ++ " == true", none) ∧
    generateFromPattern (.bool false) p = (p ++ " == false", none) ∧
    (∀ n : Nat, generateFromPattern (.int (n : Int)) p = (p ++ " == " ++ Nat.repr n, none)) ∧
    (∀ n : Nat, generateFromPattern (.int (-(n + 1 : Nat) : Int)) p
      = (p ++ " == -" ++ Nat.repr (n + 1), none)) ∧
    (∀ n : Int, generateFromPattern (.int64 n) p = generateFromPattern (.int n) p) ∧
    generateFromPattern (.int (-42)) "object.spec.replicas" = ("object.spec.replicas == -42", none) ∧
    generateFromPattern .null p = ("!has(" ++ p ++ ")", none) := by
  refine ⟨?_, ?_, ?_, ?_, ?_, by decide, by simp [generateFromPattern]⟩
  · simp only [generateFromPattern, formatBool, String.append_assoc]
    rfl
  · simp only [generateFromPattern, formatBool, String.append_assoc]
    rfl
  · intro n
    simp [generateFromPattern, formatInt]
  · intro n
    have h : (-((n + 1 : Nat) : Int)) = Int.negSucc n := rfl
    rw [h]
    simp only [generateFromPattern, formatInt, String.append_assoc]
    rw [← String.append_assoc " == " "-"]
    rfl
  · intro n
    simp [generateFromPattern]

/-! ## The dispatcher and for-each rules -/

theorem forEachClause_eq (listPath condition : String) :
    "!has(" ++ listPath ++ ") || " ++ listPath ++ ".all(" ++ "element" ++ ", " ++ condition ++ ")"
      = forEachClause listPath condition := by
  simp only [forEachClause, String.append_assoc]
  rw [← String.append_assoc ".all(" "element", ← String.append_assoc (".all(" ++ "element") ", "]
  rfl

/-- The loop of `generateFromForEach` when every sub-pattern compiles. -/
theorem forEachConditions_ok : ∀ (forEachs : List ForEach),
    (∀ fe ∈ forEachs, (generateFromPattern fe.Pattern "element").2 = none) →
    forEachConditions forEachs = (forEachs.map (fun fe =>
      forEachClause (replaceFirst fe.List "request.object" "object")
        (generateFromPattern fe.Pattern "element").1), none)
  | [], _ => rfl
  | fe :: rest, h => by
    have hfe : (generateFromPattern fe.Pattern "element").2 = none := h fe (by simp)
    have hrest := forEachConditions_ok rest (fun f hf => h f (by simp [hf]))
    rcases hc : generateFromPattern fe.Pattern "element" with ⟨c, _ | err⟩
    · simp only [forEachConditions, hc, hrest, forEachClause_eq, List.map_cons]
    · rw [hc] at hfe
      exact absurd hfe (by simp)

/-- The loop of `generateFromForEach` returns the error of the first failing spec. -/
theorem forEachConditions_first_error : ∀ (pre : List ForEach) (fe : ForEach)
    (post : List ForEach) (err : String),
    (∀ f ∈ pre, (generateFromPattern f.Pattern "element").2 = none) →
    (generateFromPattern fe.Pattern "element").2 = some err →
    forEachConditions (pre ++ fe :: post) = ([], some err)
  | [], fe, post, err, _, hfe => by
    rcases hc : generateFromPattern fe.Pattern "element" with ⟨c, _ | e⟩
    · rw [hc] at hfe
      exact absurd hfe (by simp)
    · rw [hc] at hfe
      simp only [Option.some.injEq] at hfe
      simp [forEachConditions, hc, hfe]
  | f :: pre, fe, post, err, hpre, hfe => by
    have hf : (generateFromPattern f.Pattern "element").2 = none := hpre f (by simp)
    have hrest := forEachConditions_first_error pre fe post err
      (fun g hg => hpre g (by simp [hg])) hfe
    rcases hc : generateFromPattern f.Pattern "element" with ⟨c, _ | e⟩
    · simp [forEachConditions, hc, hrest]
    · rw [hc] at hf
      exact absurd hf (by simp)

theorem replaceFirst_leading (old new s : String) :
    replaceFirst (old ++ s) old new = new ++ s := by
  apply String.ext
  simp only [replaceFirst, String.data_append]
  cases hl : old.data ++ s.data with
  | nil =>
    have h1 : old.data = [] := (List.append_eq_nil.mp hl).1
    have h2 : s.data = [] := (List.append_eq_nil.mp hl).2
    simp [replaceFirstChars, h1, h2]
  | cons c cs =>
    have hp : old.data.isPrefixOf (c :: cs) = true := by
      rw [← hl]; simp
    simp only [replaceFirstChars, hp, if_true]
    rw [← hl]; simp

/-- C11: for a validate block whose pattern is present (not `nil`), `GenerateCEL` returns
`generateFromPattern(pattern, "object")`, and the result is the same for every other list of
for-each specs (and every other message): the for-each specs are never looked at. -/
theorem GenerateCEL_pattern_precedence (message : String) (pattern : Pattern)
    (forEach : List ForEach) (hp : pattern ≠ Pattern.null) :
    GenerateCEL ⟨message, pattern, forEach⟩ = generateFromPattern pattern "object" ∧
    ∀ (message2 : String) (forEach2 : List ForEach),
      GenerateCEL ⟨message2, pattern, forEach2⟩ = GenerateCEL ⟨message, pattern, forEach⟩ := by
  have hnil : pattern.isNil = false := by
    cases pattern <;> first | rfl | exact absurd rfl hp
  have h : ∀ (m : String) (fes : List ForEach),
      GenerateCEL ⟨m, pattern, fes⟩ = generateFromPattern pattern "object" := by
    intro m fes
    simp [GenerateCEL, hnil]
  exact ⟨h _ _, fun m fes => by rw [h, h]⟩

/-- The empty object pattern together with a for-each spec whose sub-pattern is a list. -/
theorem GenerateCEL_pattern_precedence_witness :
    Pattern.map [] ≠ Pattern.null ∧
    (generateFromForEach [⟨"request.object.spec.containers", .list []⟩]).2 ≠ none ∧
    GenerateCEL ⟨"msg", .map [], [⟨"request.object.spec.containers", .list []⟩]⟩
      = ("true", none) :=
  ⟨by simp, by decide,
   (GenerateCEL_pattern_precedence "msg" (.map [])
      [⟨"request.object.spec.containers", .list []⟩] (by simp)).1⟩

/-- C12: a validate block without pattern and with an empty for-each list gives an error and the
empty text, whatever its message; without pattern and with a non-empty for-each list `GenerateCEL`
returns `generateFromForEach` of that list. -/
theorem GenerateCEL_without_pattern (message : String) :
    (∃ err, GenerateCEL ⟨message, .null, []⟩ = ("", some err)) ∧
    ∀ (fe : ForEach) (rest : List ForEach),
      GenerateCEL ⟨message, .null, fe :: rest⟩ = generateFromForEach (fe :: rest) := by
  refine ⟨⟨_, rfl⟩, ?_⟩
  intro fe rest
  simp [GenerateCEL, Pattern.isNil]

/-- C13 as stated fails: for the list path `keys(request.object.metadata.labels)`, which does not
start with `request.object`, the result of `generateFromForEach` is built on
`keys(object.metadata.labels)` and not on the list path with a leading `request.object`
replaced. -/
theorem forEach_replaces_inner_occurrence :
    replaceLeading "keys(request.object.metadata.labels)" "request.object" "object"
      = "keys(request.object.metadata.labels)" ∧
    generateFromPattern (.str "*") "element" = ("has(element)", none) ∧
    generateFromForEach [⟨"keys(request.object.metadata.labels)", .str "*"⟩]
      = ("!has(keys(object.metadata.labels)) || " ++
          "keys(object.metadata.labels).all(element, has(element))", none) ∧
    generateFromForEach [⟨"keys(request.object.metadata.labels)", .str "*"⟩]
      ≠ (join [forEachClause
            (replaceLeading "keys(request.object.metadata.labels)" "request.object" "object")
            "has(element)"] " && ", none) := by
  decide

/-- C13, amended: when every sub-pattern compiles, `generateFromForEach` returns the clauses
`!has(Li) || Li.all(element, ci)` joined by ` && ` in declaration order, where `ci` is
`generateFromPattern(pattern_i, "element")` and `Li` is the list path with its first occurrence
of `request.object`, wherever it stands, replaced by `object` (for a list path
`request.object` ++ s this is `object` ++ s); and when the specs before a failing one compile,
the result is the error of that first failing spec and the empty text. -/
theorem generateFromForEach_clauses (forEachs : List ForEach) :
    ((∀ fe ∈ forEachs, (generateFromPattern fe.Pattern "element").2 = none) →
      generateFromForEach forEachs = (join (forEachs.map (fun fe =>
        forEachClause (replaceFirst fe.List "request.object" "object")
          (generateFromPattern fe.Pattern "element").1)) " && ", none)) ∧
    (∀ s : String, replaceFirst ("request.object" ++ s) "request.object" "object"
      = "object" ++ s) ∧
    (∀ (pre : List ForEach) (fe : ForEach) (post : List ForEach) (err : String),
      forEachs = pre ++ fe :: post →
      (∀ f ∈ pre, (generateFromPattern f.Pattern "element").2 = none) →
      (generateFromPattern fe.Pattern "element").2 = some err →
      generateFromForEach forEachs = ("", some err)) := by
  refine ⟨?_, fun s => replaceFirst_leading _ _ s, ?_⟩
  · intro h
    simp only [generateFromForEach, forEachConditions_ok forEachs h]
  · intro pre fe post err hsplit hpre hfe
    simp only [generateFromForEach, hsplit, forEachConditions_first_error pre fe post err hpre hfe]

/-- Two for-each specs that compile, and two specs of which the second fails. -/
theorem generateFromForEach_clauses_witness :
    generateFromForEach [⟨"request.object.spec.containers", .map [("name", .str "*")]⟩,
        ⟨"request.object.spec.volumes", .null⟩]
      = (join [forEachClause "object.spec.containers" "(has(element) && has(element.name))",
          forEachClause "object.spec.volumes" "!has(element)"] " && ", none) ∧
    generateFromForEach [⟨"request.object.spec.containers", .null⟩,
        ⟨"request.object.spec.volumes", .list []⟩]
      = ("", some "array patterns are not supported; please use a `foreach` rule instead") :=
  ⟨(generateFromForEach_clauses [⟨"request.object.spec.containers", .map [("name", .str "*")]⟩,
        ⟨"request.object.spec.volumes", .null⟩]).1 (by decide),
   (generateFromForEach_clauses [⟨"request.object.spec.containers", .null⟩,
        ⟨"request.object.spec.volumes", .list []⟩]).2.2
      [⟨"request.object.spec.containers", .null⟩] ⟨"request.object.spec.volumes", .list []⟩ []
      _ rfl (by decide) rfl⟩

/-- C18, evaluated on the code: for the two for-each specs over `request.object.spec.containers`
and `request.object.spec.volumes` with the element pattern `*`, the two clauses are joined by
` && ` without parentheses around them, and the `||` of a clause stands outside every
parenthesis of the joined text. -/
theorem forEach_or_at_depth_zero :
    generateFromForEach [⟨"request.object.spec.containers", .str "*"⟩,
        ⟨"request.object.spec.volumes", .str "*"⟩]
      = ("!has(object.spec.containers) || object.spec.containers.all(element, has(element))" ++
          " && " ++
          "!has(object.spec.volumes) || object.spec.volumes.all(element, has(element))", none) ∧
    orOutsideParens (generateFromForEach [⟨"request.object.spec.containers", .str "*"⟩,
        ⟨"request.object.spec.volumes", .str "*"⟩]).1.data 0 = true := by
  decide

/-! ## The labels example and the guards of the key conditions -/

/-- C14 as stated fails: the pattern `metadata: labels: (app): "?*"` at the path `object` does
not compile to the text of the specification; the result of the code is enclosed in a pair of
parentheses and its guards name `object` and `object.metadata`. -/
theorem labels_example_differs :
    generateFromPattern
        (.map [("metadata", .map [("labels", .map [("(app)", .str "?*")])])]) "object"
      ≠ ("has(object.metadata) && (has(object.metadata.labels) && " ++
          "(!has(object.metadata.labels.app) || " ++
          "(has(object.metadata.labels.app) && object.metadata.labels.app != '')))", none) ∧
    generateFromPattern
        (.map [("metadata", .map [("labels", .map [("(app)", .str "?*")])])]) "object"
      = ("(has(object) && (has(object.metadata) && " ++
          "(!has(object.metadata.labels.app) || " ++
          "(has(object.metadata.labels.app) && object.metadata.labels.app != ''))))", none) := by
  decide

/-- C14, amended: the pattern `metadata: labels: (app): "?*"` compiles at the path `object`,
through `generateFromPattern` and through `GenerateCEL` alike, without error to a text that is
enclosed in one pair of parentheses, as the result of every non-empty map is, and has the shape
`(has(G1) && (has(G2) && (!has(object.metadata.labels.app) ||
(has(object.metadata.labels.app) && object.metadata.labels.app != ''))))`, with a guard on some
path `G1` in front of the `metadata` condition and on some path `G2` in front of the `labels`
condition. -/
theorem labels_example_shape :
    ∃ g1 g2 : String,
      generateFromPattern
          (.map [("metadata", .map [("labels", .map [("(app)", .str "?*")])])]) "object"
        = ("(has(" ++ g1 ++ ") && (has(" ++ g2 ++ ") && " ++
            "(!has(object.metadata.labels.app) || " ++
            "(has(object.metadata.labels.app) && object.metadata.labels.app != ''))))", none) ∧
      ∀ (message : String) (forEach : List ForEach),
        GenerateCEL ⟨message,
            .map [("metadata", .map [("labels", .map [("(app)", .str "?*")])])], forEach⟩
          = generateFromPattern
              (.map [("metadata", .map [("labels", .map [("(app)", .str "?*")])])]) "object" :=
  ⟨"object", "object.metadata", by decide, fun _ _ => rfl⟩

/-- C15, evaluated on the code: for the add-if-absent key `+(a)` with the sub-pattern `true`
under the path `object`, the map compiles and the condition of the entry is `object.a == true`,
which begins neither with the guard `has(object) && ` nor with `!has(`. -/
theorem add_if_absent_condition_unguarded :
    generateFromMap [("+(a)", .bool true)] "object" = ("(object.a == true)", none) ∧
    entryCondition "+(a)" "object" (generateFromPattern (.bool true))
      = ("object.a == true", none) ∧
    hasPrefix (entryCondition "+(a)" "object" (generateFromPattern (.bool true))).1
      "has(object) && " = false ∧
    hasPrefix (entryCondition "+(a)" "object" (generateFromPattern (.bool true))).1
      "!has(" = false := by
  decide

/-! ## Enumeration order -/

/-- The loop of `generateFromMap`, when it does not fail, yields the condition of each entry, in
the order of the entries. -/
theorem collectConditions_ok : ∀ (entries : List (String × Pattern)) (path : String),
    (collectConditions entries path).2 = none →
    collectConditions entries path
      = (entries.map (fun e => (entryCondition e.1 path (generateFromPattern e.2)).1), none)
  | [], _, _ => rfl
  | (key, value) :: rest, path, h => by
    rcases hc : entryCondition key path (generateFromPattern value) with ⟨c, _ | err⟩
    · rcases hl : collectConditions rest path with ⟨cs, _ | err⟩
      · have hrest := collectConditions_ok rest path (by rw [hl])
        rw [hl] at hrest
        simp only [Prod.mk.injEq, and_true] at hrest
        simp [collectConditions, hc, hl, hrest]
      · simp [collectConditions, hc, hl] at h
    · simp [collectConditions, hc] at h

theorem anyUnsupportedEntry_iff (entries : List (String × Pattern)) :
    anyUnsupportedEntry entries = true ↔ ∃ e ∈ entries, hasUnsupportedNode e.2 = true := by
  induction entries with
  | nil => simp [anyUnsupportedEntry]
  | cons e rest ih =>
    rcases e with ⟨key, value⟩
    simp [anyUnsupportedEntry, ih]

/-- Whether the loop of `generateFromMap` fails does not depend on the enumeration order. -/
theorem collectConditions_error_perm (entries entries2 : List (String × Pattern)) (path : String)
    (hperm : entries.Perm entries2) :
    (collectConditions entries path).2.isSome = (collectConditions entries2 path).2.isSome := by
  rw [collectConditions_error, collectConditions_error]
  have h : anyUnsupportedEntry entries = true ↔ anyUnsupportedEntry entries2 = true := by
    rw [anyUnsupportedEntry_iff, anyUnsupportedEntry_iff]
    constructor
    · rintro ⟨e, he, hu⟩
      exact ⟨e, hperm.mem_iff.mp he, hu⟩
    · rintro ⟨e, he, hu⟩
      exact ⟨e, hperm.mem_iff.mpr he, hu⟩
  cases h1 : anyUnsupportedEntry entries <;> cases h2 : anyUnsupportedEntry entries2 <;> simp_all

/-- C19 as stated fails on the empty map: its only enumeration order compiles to `true`, which is
not a parenthesized join of conjuncts. -/
theorem empty_map_not_parenthesized :
    generateFromMap [] "object" = ("true", none) ∧
    (generateFromMap [] "object").1 ≠ "(" ++ join [] " && " ++ ")" ∧
    hasPrefix (generateFromMap [] "object").1 "(" = false := by
  decide

/-- C19, amended: for every path and every two enumeration orders of the same entries,
`generateFromMap` fails for both or succeeds for both; on success both outputs are `true` when
the map is empty, and otherwise they are the conditions of the entries, each taken in its
enumeration order, joined by ` && ` in parentheses, so that one list of conjuncts is the
permutation of the other that the entries undergo. -/
theorem generateFromMap_enumeration_order (entries entries2 : List (String × Pattern))
    (path : String) (hperm : entries.Perm entries2) :
    (generateFromMap entries path).2.isSome = (generateFromMap entries2 path).2.isSome ∧
    ((generateFromMap entries path).2 = none →
      (entries = [] →
        generateFromMap entries path = ("true", none) ∧
        generateFromMap entries2 path = ("true", none)) ∧
      (entries ≠ [] →
        generateFromMap entries path
          = ("(" ++ join (entries.map (fun e =>
              (entryCondition e.1 path (generateFromPattern e.2)).1)) " && " ++ ")", none) ∧
        generateFromMap entries2 path
          = ("(" ++ join (entries2.map (fun e =>
              (entryCondition e.1 path (generateFromPattern e.2)).1)) " && " ++ ")", none) ∧
        (entries.map (fun e => (entryCondition e.1 path (generateFromPattern e.2)).1)).Perm
          (entries2.map (fun e => (entryCondition e.1 path (generateFromPattern e.2)).1)))) := by
  have herr := collectConditions_error_perm entries entries2 path hperm
  have hj1 := (joinConditions_error (collectConditions entries path)).1
  have hj2 := (joinConditions_error (collectConditions entries2 path)).1
  refine ⟨by simp only [generateFromMap, hj1, hj2, herr], ?_⟩
  intro hok
  have h1 : (collectConditions entries path).2 = none := by
    rw [← hj1]; exact hok
  have h2 : (collectConditions entries2 path).2 = none := by
    rw [h1] at herr
    cases h : (collectConditions entries2 path).2 with
    | none => rfl
    | some e => rw [h] at herr; simp at herr
  have e1 := collectConditions_ok entries path h1
  have e2 := collectConditions_ok entries2 path h2
  constructor
  · intro hnil
    have hnil2 : entries2 = [] := by
      rw [hnil] at hperm
      exact List.Perm.nil_eq hperm |>.symm
    subst hnil
    subst hnil2
    exact ⟨rfl, rfl⟩
  · intro hne
    have hne2 : entries2 ≠ [] := by
      intro h
      rw [h] at hperm
      exact hne (List.Perm.eq_nil hperm)
    refine ⟨?_, ?_, hperm.map _⟩
    · simp [generateFromMap, e1, joinConditions, hne]
    · simp [generateFromMap, e2, joinConditions, hne2]

/-- The two orders of a map with a conditional anchor and a plain key. -/
theorem generateFromMap_enumeration_order_witness :
    generateFromMap [("(a)", .str "*"), ("b", .str "*")] "object"
      = ("(!has(object.a) || (has(object.a)) && has(object) && has(object.b))", none) ∧
    generateFromMap [("b", .str "*"), ("(a)", .str "*")] "object"
      = ("(has(object) && has(object.b) && !has(object.a) || (has(object.a)))", none) :=
  ⟨((generateFromMap_enumeration_order [("(a)", .str "*"), ("b", .str "*")]
        [("b", .str "*"), ("(a)", .str "*")] "object" (List.Perm.swap _ _ _)).2
      (by decide)).2 (by simp) |>.1,
   ((generateFromMap_enumeration_order [("(a)", .str "*"), ("b", .str "*")]
        [("b", .str "*"), ("(a)", .str "*")] "object" (List.Perm.swap _ _ _)).2
      (by decide)).2 (by simp) |>.2.1⟩

/-! ## The policy converter -/

/-- The loop of `ToValidatingPolicy` when `GenerateCEL` succeeds on every rule. -/
theorem convertRules_ok : ∀ (rules : List LegacyRule),
    (∀ rule ∈ rules, (GenerateCEL rule.Validate).2 = none) →
    convertRules rules = (rules.map (fun rule =>
      (⟨rule.Validate.Message, (GenerateCEL rule.Validate).1⟩ : Validation)), none)
  | [], _ => rfl
  | rule :: rest, h => by
    have hr : (GenerateCEL rule.Validate).2 = none := h rule (by simp)
    have hrest := convertRules_ok rest (fun r hm => h r (by simp [hm]))
    rcases hc : GenerateCEL rule.Validate with ⟨c, _ | err⟩
    · simp [convertRules, hc, hrest]
    · rw [hc] at hr
      exact absurd hr (by simp)

/-- The loop of `ToValidatingPolicy` returns an error when `GenerateCEL` fails on some rule. -/
theorem convertRules_fail : ∀ (rules : List LegacyRule),
    (∃ rule ∈ rules, (GenerateCEL rule.Validate).2 ≠ none) →
    ∃ err, convertRules rules = ([], some err)
  | [], h => by simp at h
  | rule :: rest, h => by
    rcases hc : GenerateCEL rule.Validate with ⟨c, _ | err⟩
    · have hrest : ∃ r ∈ rest, (GenerateCEL r.Validate).2 ≠ none := by
        rcases h with ⟨r, hm, hr⟩
        rcases List.mem_cons.mp hm with rfl | hm2
        · rw [hc] at hr
          exact absurd rfl hr
        · exact ⟨r, hm2, hr⟩
      rcases convertRules_fail rest hrest with ⟨err, he⟩
      exact ⟨err, by simp [convertRules, hc, he]⟩
    · exact ⟨"error converting rule '" ++ rule.Name ++ "': " ++ err,
        by simp only [convertRules, hc]⟩

/-- C17: when the policy has at least one rule and `GenerateCEL` succeeds on every rule,
`ToValidatingPolicy` returns a policy and no error, the validations of the policy are as many as
the rules, and the i-th validation has the message and the `GenerateCEL` expression of the i-th
rule; when the policy has no rules, or `GenerateCEL` fails on some rule, it returns no policy
together with an error. -/
theorem ToValidatingPolicy_validations (legacy : LegacyClusterPolicy) :
    (legacy.Spec.Rules ≠ [] →
      (∀ rule ∈ legacy.Spec.Rules, (GenerateCEL rule.Validate).2 = none) →
      ∃ policy, ToValidatingPolicy legacy = (some policy, none) ∧
        policy.Spec.Validations.length = legacy.Spec.Rules.length ∧
        ∀ (i : Nat) (rule : LegacyRule), legacy.Spec.Rules.get? i = some rule →
          policy.Spec.Validations.get? i
            = some ⟨rule.Validate.Message, (GenerateCEL rule.Validate).1⟩) ∧
    (legacy.Spec.Rules = [] → ∃ err, ToValidatingPolicy legacy = (none, some err)) ∧
    ((∃ rule ∈ legacy.Spec.Rules, (GenerateCEL rule.Validate).2 ≠ none) →
      ∃ err, ToValidatingPolicy legacy = (none, some err)) := by
  refine ⟨?_, ?_, ?_⟩
  · intro hne hall
    have hok := convertRules_ok legacy.Spec.Rules hall
    cases hr : legacy.Spec.Rules with
    | nil => exact absurd hr hne
    | cons first rest =>
      rw [hr] at hok
      have hT : ToValidatingPolicy legacy = (some {
          APIVersion := "policies.kyverno.io/v1alpha1"
          Kind := "ValidatingPolicy"
          Metadata := legacy.Metadata
          Spec := {
            ValidationActions := [mapFailureAction legacy.Spec.ValidationFailureAction]
            Background := legacy.Spec.Background
            MatchConstraints := convertMatchBlock first.Match
            ExcludeConstraints := convertMatchBlock first.Exclude
            Validations := (first :: rest).map (fun rule =>
              (⟨rule.Validate.Message, (GenerateCEL rule.Validate).1⟩ : Validation)) } },
          none) := by
        simp only [ToValidatingPolicy, hr, hok]
      refine ⟨_, hT, by simp, ?_⟩
      intro i rule hi
      simp only [List.get?_eq_getElem?] at hi ⊢
      rw [List.getElem?_map, hi]
      rfl
  · intro hnil
    exact ⟨"no rules found in the policy", by simp only [ToValidatingPolicy, hnil]⟩
  · intro hex
    rcases convertRules_fail legacy.Spec.Rules hex with ⟨err, he⟩
    cases hr : legacy.Spec.Rules with
    | nil =>
      rw [hr] at hex
      simp at hex
    | cons first rest =>
      rw [hr] at he
      exact ⟨err, by simp only [ToValidatingPolicy, hr, he]⟩

/-- A policy with two rules, the first with a pattern and the second with a for-each. -/
theorem ToValidatingPolicy_validations_witness :
    ∃ policy,
      ToValidatingPolicy ⟨"kyverno.io/v1", "ClusterPolicy", ⟨"require-replicas", []⟩,
        ⟨"Enforce", none,
          [⟨"replicas", ⟨[⟨["Deployment"]⟩], []⟩, ⟨[], []⟩,
              ⟨"three replicas", .map [("spec", .map [("replicas", .int 3)])], []⟩⟩,
           ⟨"names", ⟨[], []⟩, ⟨[], []⟩,
              ⟨"named containers", .null,
                [⟨"request.object.spec.containers", .map [("name", .str "?*")]⟩]⟩⟩]⟩⟩
        = (some policy, none) ∧
      policy.Spec.Validations.length = 2 :=
  let ⟨policy, h1, h2, _⟩ :=
    (ToValidatingPolicy_validations ⟨"kyverno.io/v1", "ClusterPolicy", ⟨"require-replicas", []⟩,
        ⟨"Enforce", none,
          [⟨"replicas", ⟨[⟨["Deployment"]⟩], []⟩, ⟨[], []⟩,
              ⟨"three replicas", .map [("spec", .map [("replicas", .int 3)])], []⟩⟩,
           ⟨"names", ⟨[], []⟩, ⟨[], []⟩,
              ⟨"named containers", .null,
                [⟨"request.object.spec.containers", .map [("name", .str "?*")]⟩]⟩⟩]⟩⟩).1
      (by simp) (by decide)
  ⟨policy, h1, h2⟩

/-! ## Reading the literals back -/

theorem digitChar_value : ∀ k < 10,
    (Nat.digitChar k).isDigit = true ∧ (Nat.digitChar k).toNat - 48 = k := by
  decide

theorem parseDigitsFrom_append : ∀ (a b : List Char) (acc : Nat),
    parseDigitsFrom (a ++ b) acc = (parseDigitsFrom a acc).bind (parseDigitsFrom b)
  | [], _, _ => rfl
  | c :: cs, b, acc => by
    simp only [List.cons_append, parseDigitsFrom]
    split_ifs
    · exact parseDigitsFrom_append cs b _
    · rfl

/-- The digits that `Nat.toDigitsCore` puts in front of `ds` are not empty and read back as
`n`. -/
theorem toDigitsCore_parse : ∀ (fuel n : Nat) (ds : List Char), n < fuel →
    ∃ pre : List Char, Nat.toDigitsCore 10 fuel n ds = pre ++ ds ∧ pre ≠ [] ∧
      ∀ acc, parseDigitsFrom pre acc = some (acc * 10 ^ pre.length + n)
  | 0, _, _, h => absurd h (Nat.not_lt_zero _)
  | fuel + 1, n, ds, h => by
    have hd := digitChar_value (n % 10) (Nat.mod_lt _ (by decide))
    simp only [Nat.toDigitsCore]
    split_ifs with h0
    · refine ⟨[Nat.digitChar (n % 10)], rfl, by simp, ?_⟩
      intro acc
      have hn : n % 10 = n := by omega
      simp only [parseDigitsFrom, hd.1, if_true, hd.2, List.length_singleton, pow_one]
      rw [hn]
    · have hlt : n / 10 < fuel := by omega
      rcases toDigitsCore_parse fuel (n / 10) (Nat.digitChar (n % 10) :: ds) hlt with
        ⟨pre, hpre, _, hparse⟩
      refine ⟨pre ++ [Nat.digitChar (n % 10)], by rw [hpre]; simp, by simp, ?_⟩
      intro acc
      rw [parseDigitsFrom_append, hparse]
      simp only [Option.bind, parseDigitsFrom, hd.1, if_true, hd.2, List.length_append,
        List.length_singleton, pow_succ, Option.some.injEq]
      have := Nat.div_add_mod n 10
      ring_nf
      omega

theorem parseDigitsFrom_head (c : Char) (cs : List Char) (acc n : Nat)
    (h : parseDigitsFrom (c :: cs) acc = some n) : c.isDigit = true := by
  simp only [parseDigitsFrom] at h
  split_ifs at h with hc
  exact hc

/-- The decimal rendering of a natural number is a digit followed by digits and reads back. -/
theorem parseNat_repr (n : Nat) :
    ∃ (c : Char) (cs : List Char), (Nat.repr n).data = c :: cs ∧ c.isDigit = true ∧
      parseNat (c :: cs) = some n := by
  rcases toDigitsCore_parse (n + 1) n [] (Nat.lt_succ_self n) with ⟨pre, hpre, hne, hparse⟩
  have hdata : (Nat.repr n).data = pre := by
    simp [Nat.repr, Nat.toDigits, hpre, List.asString]
  cases pre with
  | nil => exact absurd rfl hne
  | cons c cs =>
    have hp := hparse 0
    simp only [zero_mul, zero_add] at hp
    exact ⟨c, cs, hdata, parseDigitsFrom_head c cs 0 n hp, hp⟩

theorem parseInt_formatInt (n : Int) : parseInt (formatInt n) = some n := by
  cases n with
  | ofNat m =>
    rcases parseNat_repr m with ⟨c, cs, hdata, hdig, hparse⟩
    have hc : c ≠ '-' := by
      intro h
      rw [h] at hdig
      exact absurd hdig (by decide)
    simp [parseInt, formatInt, hdata, hc, hparse]
  | negSucc m =>
    rcases parseNat_repr (m + 1) with ⟨c, cs, hdata, hdig, hparse⟩
    have hdata2 : ("-" ++ Nat.repr (m + 1)).data = '-' :: c :: cs := by
      rw [String.data_append, hdata]; rfl
    simp only [parseInt, formatInt, hdata2, if_true, hparse, Option.map_some']
    rfl

theorem takeWhile_before_quote : ∀ (l : List Char), quoteChar ∉ l →
    (l ++ [quoteChar]).takeWhile (fun x => x != quoteChar) = l
  | [], _ => by simp [List.takeWhile]
  | c :: cs, h => by
    have hc : c ≠ quoteChar := fun e => h (by simp [e])
    have hcs : quoteChar ∉ cs := fun e => h (by simp [e])
    have hb : (c != quoteChar) = true := by simp [hc]
    have ih := takeWhile_before_quote cs hcs
    rw [List.cons_append, List.takeWhile_cons, hb]
    simp only [if_true, ih]

theorem readQuoted_quoted (v : String) (h : quoteChar ∉ v.data) :
    readQuoted ("'" ++ v ++ "'") = some v := by
  have hdata : ("'" ++ v ++ "'").data = quoteChar :: (v.data ++ [quoteChar]) := by
    simp only [String.data_append]; rfl
  simp only [readQuoted, hdata, takeWhile_before_quote v.data h]
  simp

/-- C16 as stated fails: the value `a'b` at the path `object.metadata.name` is rendered as
`object.metadata.name == 'a'b'`, without escaping of the quote, and reading the literal up to the
next quote gives `a`, not the value. -/
theorem quoted_value_not_recovered :
    contains "object.metadata.name" "image" = false ∧
    generateValueCheck "a'b" "object.metadata.name"
      = ("object.metadata.name == " ++ "'a'b'", none) ∧
    readQuoted "'a'b'" = some "a" ∧
    readQuoted "'a'b'" ≠ some "a'b" := by
  decide

/-- C16, amended: for a path `p` without `image` and a string `v` other than `?*`, `*`, `!*`
that contains no quote character, `generateValueCheck(v, p)` is `p == ` followed by the
single-quoted literal, and reading the literal up to the next quote gives back `v`; for every
integer `n` and boolean `b` the output of `generateFromPattern` is `p == ` followed by a token
that reads back as `n`, respectively `b`. -/
theorem literal_round_trip (p : String) :
    (∀ v : String, contains p "image" = false → v ≠ "?*" → v ≠ "*" → v ≠ "!*" →
      quoteChar ∉ v.data →
      generateValueCheck v p = (p ++ " == " ++ ("'" ++ v ++ "'"), none) ∧
      readQuoted ("'" ++ v ++ "'") = some v) ∧
    (∀ n : Int,
      generateFromPattern (.int n) p = (p ++ " == " ++ formatInt n, none) ∧
      generateFromPattern (.int64 n) p = (p ++ " == " ++ formatInt n, none) ∧
      parseInt (formatInt n) = some n) ∧
    (∀ b : Bool,
      generateFromPattern (.bool b) p = (p ++ " == " ++ formatBool b, none) ∧
      parseBool (formatBool b) = some b) := by
  refine ⟨?_, ?_, ?_⟩
  · intro v hp h1 h2 h3 hq
    refine ⟨?_, readQuoted_quoted v hq⟩
    simp only [generateValueCheck, hp, standardWildcard, h1, h2, h3, if_false,
      String.append_assoc, Bool.false_eq_true]
    rw [← String.append_assoc " == " "'"]
    rfl
  · intro n
    exact ⟨by simp only [generateFromPattern], by simp only [generateFromPattern],
      parseInt_formatInt n⟩
  · intro b
    refine ⟨by simp only [generateFromPattern], ?_⟩
    cases b <;> decide

/-- The value `nginx:1.25` at the path `object.metadata.name`. -/
theorem literal_round_trip_witness :
    generateValueCheck "nginx:1.25" "object.metadata.name"
      = ("object.metadata.name == 'nginx:1.25'", none) ∧
    readQuoted "'nginx:1.25'" = some "nginx:1.25" :=
  (literal_round_trip "object.metadata.name").1 "nginx:1.25" (by decide) (by decide) (by decide)
    (by decide) (by decide)

/-! ## Balanced parentheses -/

theorem parenScan_append : ∀ (a b : List Char) (d : Nat),
    parenScan (a ++ b) d = (parenScan a d).bind (parenScan b)
  | [], _, _ => rfl
  | c :: cs, b, d => by
    simp only [List.cons_append, parenScan]
    split_ifs
    · exact parenScan_append cs b _
    · rfl
    · exact parenScan_append cs b _
    · exact parenScan_append cs b _

/-- A scan that ends with the counter at `e` bounds the `)` of every prefix and relates the
totals. -/
theorem parenScan_counts : ∀ (l : List Char) (d e : Nat), parenScan l d = some e →
    (∀ k, (l.take k).count ')' ≤ d + (l.take k).count '(') ∧
    d + l.count '(' = e + l.count ')'
  | [], d, e, h => by
    simp only [parenScan, Option.some.injEq] at h
    simp [h]
  | c :: cs, d, e, h => by
    simp only [parenScan] at h
    split_ifs at h with h1 h2 h3
    · have ih := parenScan_counts cs (d + 1) e h
      subst h1
      refine ⟨?_, ?_⟩
      · intro k
        cases k with
        | zero => simp
        | succ k =>
          have := ih.1 k
          simp only [List.take_succ_cons, List.count_cons_self]
          rw [List.count_cons_of_ne (by decide)]
          omega
      · have := ih.2
        rw [List.count_cons_self, List.count_cons_of_ne (by decide)]
        omega
    · have ih := parenScan_counts cs (d - 1) e h
      subst h2
      refine ⟨?_, ?_⟩
      · intro k
        cases k with
        | zero => simp
        | succ k =>
          have := ih.1 k
          simp only [List.take_succ_cons, List.count_cons_self]
          rw [List.count_cons_of_ne (by decide)]
          omega
      · have := ih.2
        rw [List.count_cons_self, List.count_cons_of_ne (by decide)]
        omega
    · have ih := parenScan_counts cs d e h
      refine ⟨?_, ?_⟩
      · intro k
        cases k with
        | zero => simp
        | succ k =>
          have := ih.1 k
          simp only [List.take_succ_cons]
          rw [List.count_cons_of_ne (Ne.symm h2), List.count_cons_of_ne (Ne.symm h1)]
          exact this
      · have := ih.2
        rw [List.count_cons_of_ne (Ne.symm h2), List.count_cons_of_ne (Ne.symm h1)]
        exact this

/-- A text whose scan returns to zero is balanced. -/
theorem balanced_of_parenScan (s : String) (h : parenScan s.data 0 = some 0) : Balanced s := by
  have hc := parenScan_counts s.data 0 0 h
  refine ⟨fun k _ => ?_, ?_⟩
  · have := hc.1 k
    omega
  · have := hc.2
    omega

theorem parenScan_noParens : ∀ (l : List Char),
    l.all (fun c => c != '(' && c != ')') = true → ∀ d, parenScan l d = some d
  | [], _, _ => rfl
  | c :: cs, h, d => by
    simp only [List.all_cons, Bool.and_eq_true, bne_iff_ne, ne_eq] at h
    simp only [parenScan, h.1.1, h.1.2, if_false]
    exact parenScan_noParens cs h.2 d

theorem scanNeutral_of_noParens (s : String) (h : noParens s = true) : ScanNeutral s :=
  parenScan_noParens s.data h

theorem scanNeutral_append (a b : String) (ha : ScanNeutral a) (hb : ScanNeutral b) :
    ScanNeutral (a ++ b) := by
  intro d
  simp only [String.data_append, parenScan_append, ha d, Option.some_bind, hb d]

theorem noParens_append (a b : String) (ha : noParens a = true) (hb : noParens b = true) :
    noParens (a ++ b) = true := by
  simp only [noParens, String.data_append, List.all_append, Bool.and_eq_true] at *
  exact ⟨ha, hb⟩

theorem all_of_take {p : Char → Bool} (l : List Char) (n : Nat) (h : l.all p = true) :
    (l.take n).all p = true := by
  simp only [List.all_eq_true] at *
  exact fun c hc => h c (List.mem_of_mem_take hc)

theorem all_of_drop {p : Char → Bool} (l : List Char) (n : Nat) (h : l.all p = true) :
    (l.drop n).all p = true := by
  simp only [List.all_eq_true] at *
  exact fun c hc => h c (List.mem_of_mem_drop hc)

theorem noParens_trimPrefix (s pre : String) (h : noParens s = true) :
    noParens (trimPrefix s pre) = true := by
  unfold trimPrefix
  split_ifs
  · exact all_of_drop _ _ h
  · exact h

theorem noParens_trimSuffix (s suf : String) (h : noParens s = true) :
    noParens (trimSuffix s suf) = true := by
  unfold trimSuffix
  split_ifs
  · exact all_of_take _ _ h
  · exact h

theorem parseDigitsFrom_noParens : ∀ (l : List Char) (acc n : Nat),
    parseDigitsFrom l acc = some n → l.all (fun c => c != '(' && c != ')') = true
  | [], _, _, _ => rfl
  | c :: cs, acc, n, h => by
    simp only [parseDigitsFrom] at h
    split_ifs at h with hc
    have ih := parseDigitsFrom_noParens cs _ n h
    have h1 : c ≠ '(' := by
      intro e; rw [e] at hc; exact absurd hc (by decide)
    have h2 : c ≠ ')' := by
      intro e; rw [e] at hc; exact absurd hc (by decide)
    simp [h1, h2, ih]

theorem noParens_repr (n : Nat) : noParens (Nat.repr n) = true := by
  rcases parseNat_repr n with ⟨c, cs, hdata, _, hparse⟩
  simp only [noParens, hdata]
  exact parseDigitsFrom_noParens (c :: cs) 0 n hparse

theorem noParens_formatInt (n : Int) : noParens (formatInt n) = true := by
  cases n with
  | ofNat m => exact noParens_repr m
  | negSucc m => exact noParens_append _ _ (by decide) (noParens_repr _)

theorem noParens_formatBool (b : Bool) : noParens (formatBool b) = true := by
  cases b <;> decide

theorem scan_lit_and (d : Nat) : parenScan " && ".data d = some d := rfl

theorem standardWildcard_scanNeutral (value path : String) (hv : noParens value = true)
    (hp : noParens path = true) : ScanNeutral (standardWildcard value path).1 := by
  have hv2 := scanNeutral_of_noParens value hv
  have hp2 := scanNeutral_of_noParens path hp
  unfold ScanNeutral at hv2 hp2 ⊢
  intro d
  unfold standardWildcard
  split_ifs <;> simp [String.data_append, parenScan_append, parenScan, hv2, hp2]

theorem imageTag_scanNeutral (path tag : String) (hp : ScanNeutral path)
    (ht : ScanNeutral tag) : ScanNeutral ("image(" ++ path ++ ").tag != '" ++ tag ++ "'") := by
  unfold ScanNeutral at hp ht ⊢
  intro d
  simp [String.data_append, parenScan_append, parenScan, hp, ht]

theorem imageRegistry_scanNeutral (path registry : String) (hp : ScanNeutral path)
    (hr : ScanNeutral registry) :
    ScanNeutral ("image(" ++ path ++ ").registry == '" ++ registry ++ "'") := by
  unfold ScanNeutral at hp hr ⊢
  intro d
  simp [String.data_append, parenScan_append, parenScan, hp, hr]

theorem generateValueCheck_scanNeutral (value path : String) (hv : noParens value = true)
    (hp : noParens path = true) : ScanNeutral (generateValueCheck value path).1 := by
  have hp2 := scanNeutral_of_noParens path hp
  have ht := scanNeutral_of_noParens _ (noParens_trimPrefix value "!*:" hv)
  have hr := scanNeutral_of_noParens _ (noParens_trimSuffix value "/*" hv)
  unfold generateValueCheck
  split_ifs
  · exact imageTag_scanNeutral _ _ hp2 ht
  · exact imageRegistry_scanNeutral _ _ hp2 hr
  · exact standardWildcard_scanNeutral value path hv hp
  · exact standardWildcard_scanNeutral value path hv hp

theorem join_scanNeutral : ∀ (conditions : List String),
    (∀ c ∈ conditions, ScanNeutral c) → ScanNeutral (join conditions " && ")
  | [], _ => fun _ => rfl
  | [a], h => by
    simpa [join] using h a (by simp)
  | a :: b :: rest, h => by
    have ha := h a (by simp)
    have hrest := join_scanNeutral (b :: rest) (fun c hc => h c (by simp [hc]))
    simp only [join]
    exact scanNeutral_append _ _ (scanNeutral_append _ _ ha scan_lit_and) hrest

theorem joinConditions_scanNeutral (conditions : List String)
    (h : ∀ c ∈ conditions, ScanNeutral c) : ScanNeutral (joinConditions (conditions, none)).1 := by
  have hj := join_scanNeutral conditions h
  unfold ScanNeutral at hj ⊢
  simp only [joinConditions]
  split_ifs
  · exact fun _ => rfl
  · intro d
    simp [String.data_append, parenScan_append, parenScan, hj]

theorem conditional_scanNeutral (q sub : String) (hq : ScanNeutral q) (hs : ScanNeutral sub) :
    ScanNeutral ("!has(" ++ q ++ ") || (" ++ sub ++ ")") := by
  unfold ScanNeutral at hq hs ⊢
  intro d
  simp [String.data_append, parenScan_append, parenScan, hq, hs]

theorem guarded_scanNeutral (p sub : String) (hp : ScanNeutral p) (hs : ScanNeutral sub) :
    ScanNeutral ("has(" ++ p ++ ") && " ++ sub) := by
  unfold ScanNeutral at hp hs ⊢
  intro d
  simp [String.data_append, parenScan_append, parenScan, hp, hs]

theorem scalar_scanNeutral (p token : String) (hp : noParens p = true)
    (ht : noParens token = true) : ScanNeutral (p ++ " == " ++ token) :=
  scanNeutral_of_noParens _ (noParens_append _ _ (noParens_append _ _ hp (by decide)) ht)

theorem noParens_fieldPath (path name : String) (hp : noParens path = true)
    (hn : noParens name = true) : noParens (path ++ "." ++ name) = true :=
  noParens_append _ _ (noParens_append _ _ hp (by decide)) hn

/-- The condition of an entry is scan-neutral when the translations of its sub-pattern are. -/
theorem entryCondition_scanNeutral (key path c : String) (compile : String → Result)
    (hp : noParens path = true) (hk : noParens (fieldName key) = true)
    (hcomp : ∀ q sub, noParens q = true → compile q = (sub, none) → ScanNeutral sub)
    (h : entryCondition key path compile = (c, none)) : ScanNeutral c := by
  unfold entryCondition at h
  unfold fieldName at hk
  split_ifs at h hk with h1 h2
  · have hq := noParens_fieldPath path _ hp hk
    rcases hc : compile (path ++ "." ++ trimSuffix (trimPrefix key "(") ")") with ⟨sub, _ | err⟩
    · simp only [hc, Prod.mk.injEq, and_true] at h
      rw [← h]
      exact conditional_scanNeutral _ _ (scanNeutral_of_noParens _ hq) (hcomp _ _ hq hc)
    · simp [hc] at h
  · have hq := noParens_fieldPath path _ hp hk
    rcases hc : compile (path ++ "." ++ trimSuffix (trimPrefix key "+(") ")") with ⟨sub, _ | err⟩
    · simp only [hc, Prod.mk.injEq, and_true] at h
      rw [← h]
      exact hcomp _ _ hq hc
    · simp [hc] at h
  · have hq := noParens_fieldPath path _ hp hk
    rcases hc : compile (path ++ "." ++ key) with ⟨sub, _ | err⟩
    · simp only [hc, Prod.mk.injEq, and_true] at h
      rw [← h]
      exact guarded_scanNeutral _ _ (scanNeutral_of_noParens _ hp) (hcomp _ _ hq hc)
    · simp [hc] at h

mutual

/-- The text that a parenthesis-free pattern compiles to at a parenthesis-free path is
scan-neutral. -/
theorem generateFromPattern_scanNeutral : ∀ (pattern : Pattern) (path expr : String),
    noParens path = true → parenFree pattern = true →
    generateFromPattern pattern path = (expr, none) → ScanNeutral expr
  | .map entries, path, expr, hp, hf, h => by
    simp only [generateFromPattern] at h
    simp only [parenFree] at hf
    rcases hc : collectConditions entries path with ⟨conds, _ | err⟩
    · have hall := collectConditions_scanNeutral entries path conds hp hf hc
      have hj := joinConditions_scanNeutral conds hall
      rw [hc] at h
      rw [h] at hj
      exact hj
    · rw [hc] at h
      simp [joinConditions] at h
  | .list _, _, _, _, _, h => by simp [generateFromPattern] at h
  | .str value, path, expr, hp, hf, h => by
    simp only [generateFromPattern] at h
    simp only [parenFree] at hf
    have hs := generateValueCheck_scanNeutral value path hf hp
    rw [h] at hs
    exact hs
  | .bool b, path, expr, hp, _, h => by
    simp only [generateFromPattern, Prod.mk.injEq, and_true] at h
    rw [← h]
    exact scalar_scanNeutral _ _ hp (noParens_formatBool b)
  | .int n, path, expr, hp, _, h => by
    simp only [generateFromPattern, Prod.mk.injEq, and_true] at h
    rw [← h]
    exact scalar_scanNeutral _ _ hp (noParens_formatInt n)
  | .int64 n, path, expr, hp, _, h => by
    simp only [generateFromPattern, Prod.mk.injEq, and_true] at h
    rw [← h]
    exact scalar_scanNeutral _ _ hp (noParens_formatInt n)
  | .float64 rendered, path, expr, hp, hf, h => by
    simp only [generateFromPattern, Prod.mk.injEq, and_true] at h
    simp only [parenFree] at hf
    rw [← h]
    exact scalar_scanNeutral _ _ hp hf
  | .null, path, expr, hp, _, h => by
    simp only [generateFromPattern, Prod.mk.injEq, and_true] at h
    have hp2 := scanNeutral_of_noParens path hp
    unfold ScanNeutral at hp2 ⊢
    rw [← h]
    intro d
    simp [String.data_append, parenScan_append, parenScan, hp2]
  | .other _, _, _, _, _, h => by simp [generateFromPattern] at h

/-- Every condition that the loop of `generateFromMap` collects is scan-neutral. -/
theorem collectConditions_scanNeutral : ∀ (entries : List (String × Pattern))
    (path : String) (conditions : List String),
    noParens path = true → parenFreeEntries entries = true →
    collectConditions entries path = (conditions, none) → ∀ c ∈ conditions, ScanNeutral c
  | [], _, conditions, _, _, h => by
    simp only [collectConditions, Prod.mk.injEq, and_true] at h
    rw [← h]
    simp
  | (key, value) :: rest, path, conditions, hp, hf, h => by
    simp only [parenFreeEntries, Bool.and_eq_true] at hf
    simp only [collectConditions] at h
    rcases hc : entryCondition key path (generateFromPattern value) with ⟨c, _ | err⟩
    · rcases hl : collectConditions rest path with ⟨cs, _ | err⟩
      · have hfirst := entryCondition_scanNeutral key path c (generateFromPattern value) hp
          hf.1.1 (fun q sub hq hsub => generateFromPattern_scanNeutral value q sub hq hf.1.2 hsub)
          hc
        have hrest := collectConditions_scanNeutral rest path cs hp hf.2 hl
        simp only [hc, hl, Prod.mk.injEq, and_true] at h
        rw [← h]
        intro x hx
        rcases List.mem_cons.mp hx with rfl | hx2
        · exact hfirst
        · exact hrest x hx2
      · simp [hc, hl] at h
    · simp [hc] at h

end

/-- C20: for a path without parentheses and a pattern tree that compiles and whose string values
and field names (the keys without their `(...)` or `+(...)` wrapper) contain no parentheses, the
text returned by `generateFromPattern` is parenthesis-balanced: every prefix has at least as many
`(` as `)`, and the totals are equal. -/
theorem generateFromPattern_balanced (pattern : Pattern) (path expr : String)
    (hpath : noParens path = true) (hfree : parenFree pattern = true)
    (hcompiles : generateFromPattern pattern path = (expr, none)) : Balanced expr :=
  balanced_of_parenScan expr
    (generateFromPattern_scanNeutral pattern path expr hpath hfree hcompiles 0)

/-- The labels pattern with a conditional anchor, at the path `object`. -/
theorem generateFromPattern_balanced_witness :
    Balanced ("(has(object) && (has(object.metadata) && " ++
      "(!has(object.metadata.labels.app) || " ++
      "(has(object.metadata.labels.app) && object.metadata.labels.app != ''))))") :=
  generateFromPattern_balanced
    (.map [("metadata", .map [("labels", .map [("(app)", .str "?*")])])]) "object" _
    (by decide) (by decide) (by decide)

end KyvernoConverter
